import Mathlib

/-!
Shallow embedding of the strava-uploader polling-and-retrieval pipeline.

Source files embedded here:
- `src/services/emailService.ts` (`BaseEmailService.downloadWorkoutFile`)
- `src/services/emailMonitor.ts` (`EmailMonitor`, the `IEmailService`-injected variant)
- `src/services/scheduler.ts` (`EmailScheduler.runOnce`)
- `src/services/gmailService.ts` (`GmailService.getMessages`, `OutlookService.getMessages`)

JavaScript `string | undefined` values are modelled as `Option String`
(`none` = `undefined`); JS truthiness of such a value is `strTruthy`.
HTTP traffic is modelled by a `world : String → FetchOutcome` oracle
giving, for each URL, the outcome the network would produce for a GET.
Buffers are `List Nat` byte lists.  The unbounded redirect recursion of
the source is modelled with an explicit fuel parameter; running out of
fuel yields the model-only error `DownloadError.redirectFuel`.
-/

/-- Truthiness of a JS `string | undefined` value: `undefined` and `""` are falsy. -/
def strTruthy : Option String → Bool
  | none => false
  | some s => !s.isEmpty

/-- ASCII apostrophe character (code 39). -/
def squote : Char := Char.ofNat 39

/-- Is this character one of the two quote characters of the JS regex class? -/
def isQuoteChar (c : Char) : Bool := c = '"' || c = squote

/-- Remove every quote character, as in `match[1].replace(/['"]/g, '')`. -/
def stripQuotes (s : String) : String :=
  String.mk (s.toList.filter (fun c => !isQuoteChar c))

/-- Scan for the closing quote `q` of the lazy group `(['"]).*?\2`: the body may
not contain a newline (JS `.` does not match `\n`); returns the body characters
before the first `q` together with the characters after it. -/
def quotedBody (q : Char) : List Char → Option (List Char × List Char)
  | [] => none
  | c :: rest =>
    if c = q then some ([], rest)
    else if c = '\n' then none
    else
      match quotedBody q rest with
      | some (body, aft) => some (c :: body, aft)
      | none => none

/-- Attempt to match the regex `filename[^;=\n]*=((['"]).*?\2|[^;\n]*)` at the
start of the character list, returning capture group 1 on success. -/
def cdGroupAt (cs : List Char) : Option (List Char) :=
  if "filename".toList.isPrefixOf cs then
    let rest := cs.drop 8
    let rest2 := rest.dropWhile (fun c => c ≠ ';' && c ≠ '=' && c ≠ '\n')
    match rest2 with
    | '=' :: rest3 =>
      match rest3 with
      | c :: tl =>
        if isQuoteChar c then
          match quotedBody c tl with
          | some (body, _) => some (c :: (body ++ [c]))
          | none => some (rest3.takeWhile (fun d => d ≠ ';' && d ≠ '\n'))
        else some (rest3.takeWhile (fun d => d ≠ ';' && d ≠ '\n'))
      | [] => some []
    | _ => none
  else none

/-- Leftmost match of the filename regex over the whole header value. -/
def cdFirstGroup : List Char → Option (List Char)
  | [] => none
  | c :: tl =>
    match cdGroupAt (c :: tl) with
    | some g => some g
    | none => cdFirstGroup tl

/-- Capture group 1 of `contentDisposition.match(/filename[^;=\n]*=((['"]).*?\2|[^;\n]*)/)`. -/
def contentDispositionFilename (s : String) : Option String :=
  (cdFirstGroup s.toList).map String.mk

deriving instance DecidableEq for Except

/-- HTTP response as observed by `downloadWorkoutFile`: status code, the
`location` and `content-disposition` headers, and the body stream, which
either delivers the full byte list or raises a stream error. -/
structure HttpResponse where
  statusCode : Nat
  location : Option String
  contentDisposition : Option String
  body : Except String (List Nat)
deriving DecidableEq, Repr

/-- Outcome of issuing one HTTP GET: a request-level error event, the
timeout timer firing before any terminal outcome, or a response. -/
inductive FetchOutcome
  | reqError (msg : String)
  | timeout
  | response (r : HttpResponse)
deriving DecidableEq, Repr

/-- Errors `downloadWorkoutFile` can reject with. -/
inductive DownloadError
  | argError
  | httpStatus (code : Nat)
  | streamError (msg : String)
  | requestError (msg : String)
  | timedOut (timeoutMs : Nat)
  | redirectFuel
deriving DecidableEq, Repr

/-- The `Error` message text each rejection carries in the source. -/
def DownloadError.message : DownloadError → String
  | argError => "URL is required to download workout file"
  | httpStatus code => "Failed to download file: HTTP " ++ toString code
  | streamError m => m
  | requestError m => m
  | timedOut t => "Download of workout file timed out: " ++ toString t ++ "ms"
  | redirectFuel => "redirect recursion fuel exhausted (model artifact)"

/-- JS `String.prototype.split` with a one-character separator, on character
lists: always returns at least one (possibly empty) segment. -/
def jsSplit (sep : Char) : List Char → List (List Char)
  | [] => [[]]
  | c :: rest =>
    let r := jsSplit sep rest
    if c = sep then [] :: r
    else
      match r with
      | h :: t => (c :: h) :: t
      | [] => [[c]]

/-- JS `url.split('/')` on strings. -/
def jsSplitSlash (s : String) : List String :=
  (jsSplit '/' s.toList).map String.mk

/-- JS `String.prototype.endsWith`. -/
def jsEndsWith (s suffix : String) : Bool :=
  suffix.toList.isSuffixOf s.toList

/-- Result of a successful download: `{ filename, data }`. -/
structure DownloadResult where
  filename : String
  data : List Nat
deriving DecidableEq, Repr

/-- Filename resolution of `BaseEmailService.downloadWorkoutFile` (source lines
290-308): start from the hint (`let finalFilename = filename`); if falsy, try
the `content-disposition` regex group (used only when the raw group is truthy,
then quote-stripped); if still falsy, take the last `/`-segment of the URL
(defaulting to `workout.tcx` when that segment is empty) and append `.tcx`
when missing — the append lives only in this last branch. -/
def resolveFilename (url : String) (cd : Option String) (filename : Option String) : String :=
  let afterCd : Option String :=
    if strTruthy filename then filename
    else
      match cd with
      | some c =>
        match contentDispositionFilename c with
        | some g => if g.isEmpty then none else some (stripQuotes g)
        | none => none
      | none => none
  if strTruthy afterCd then afterCd.getD ""
  else
    let urlParts := jsSplitSlash url
    let lastSeg := urlParts.getLastD ""
    let base := if lastSeg.isEmpty then "workout.tcx" else lastSeg
    if jsEndsWith base ".tcx" then base else base ++ ".tcx"

/-- Embedding of `BaseEmailService.downloadWorkoutFile(url, timeout = 30000,
filename?)`.  Returns the settled promise value together with the list of URLs
an HTTP GET was issued for (in order).  `url` is `Option String` because the
monitor can pass `undefined`; the source guards with `if (!url) reject(...)`.
Redirects (301/302 with a truthy `location` header) recurse with the same
timeout and hint; the fuel argument bounds that recursion in the model. -/
def downloadWorkoutFile (world : String → FetchOutcome) (fuel : Nat) (url : Option String)
    (timeoutMs : Nat) (filename : Option String) :
    Except DownloadError DownloadResult × List String :=
  if !strTruthy url then (Except.error DownloadError.argError, [])
  else
    let u := url.getD ""
    match world u with
    | FetchOutcome.reqError e => (Except.error (DownloadError.requestError e), [u])
    | FetchOutcome.timeout => (Except.error (DownloadError.timedOut timeoutMs), [u])
    | FetchOutcome.response r =>
      if (r.statusCode == 302 || r.statusCode == 301) && strTruthy r.location then
        match fuel with
        | 0 => (Except.error DownloadError.redirectFuel, [u])
        | Nat.succ fuel' =>
          let res := downloadWorkoutFile world fuel' (some (r.location.getD "")) timeoutMs filename
          (res.1, u :: res.2)
      else if r.statusCode ≠ 200 then (Except.error (DownloadError.httpStatus r.statusCode), [u])
      else
        match r.body with
        | Except.error e => (Except.error (DownloadError.streamError e), [u])
        | Except.ok data =>
          (Except.ok { filename := resolveFilename u r.contentDisposition filename, data := data }, [u])

/-- One retrieved email as produced by the Gmail variant's parser and consumed
by the monitor (`EmailMessage` of `types/email.ts`, download-link shape).
`date` is the opaque timestamp; no embedded operation inspects it. -/
structure EmailMessage where
  id : String
  fromAddr : String
  subject : String
  date : Nat
  downloadLinks : List String
deriving DecidableEq, Repr

/-- Behaviour of the `IEmailService` provider injected into `EmailMonitor`:
the outcome of `connect()`, the outcome of `getMessages(filter)`, and the
HTTP world plus redirect fuel used by the inherited shared
`downloadWorkoutFile` of `BaseEmailService`. -/
structure ProviderSpec where
  connectResult : Except String Unit
  messages : Except String (List EmailMessage)
  world : String → FetchOutcome
  fuel : Nat

/-- Observable calls made by the monitor/scheduler layer, in order. -/
inductive MEvent
  | connect
  | disconnect
  | getMessagesCall
  | processCall (id : String)
  | downloadCall (url : Option String)
  | httpGet (url : String)
deriving DecidableEq, Repr

/-- Monitor state: the single `isRunning` boolean of `EmailMonitor`. -/
structure MonitorS where
  isRunning : Bool
deriving DecidableEq, Repr

namespace EmailMonitor

/-- Embedding of `EmailMonitor.start()`: no-op when already running, else
`provider.connect()`; set `isRunning` on success, rethrow on failure. -/
def start (p : ProviderSpec) (s : MonitorS) :
    MonitorS × Except String Unit × List MEvent :=
  if s.isRunning then (s, Except.ok (), [])
  else
    match p.connectResult with
    | Except.ok () => (⟨true⟩, Except.ok (), [MEvent.connect])
    | Except.error e => (s, Except.error e, [MEvent.connect])

/-- Embedding of `EmailMonitor.stop()`: no-op when not running, else
`provider.disconnect()` and clear `isRunning`; never throws. -/
def stop (s : MonitorS) : MonitorS × List MEvent :=
  if !s.isRunning then (s, [])
  else (⟨false⟩, [MEvent.disconnect])

/-- Embedding of `EmailMonitor.checkForNewEmails()`: throw the not-running
error when stopped, else delegate to `provider.getMessages(filter)` and
return its list unmodified (the monitor only logs). -/
def checkForNewEmails (p : ProviderSpec) (s : MonitorS) :
    MonitorS × Except String (List EmailMessage) × List MEvent :=
  if !s.isRunning then (s, Except.error "Email monitor is not running", [])
  else
    match p.messages with
    | Except.ok msgs => (s, Except.ok msgs, [MEvent.getMessagesCall])
    | Except.error e => (s, Except.error e, [MEvent.getMessagesCall])

/-- Embedding of `EmailMonitor.processWorkoutEmail(message)`: awaits
`provider.downloadWorkoutFile(message.downloadLinks[0], 30000, message.id)`;
`downloadLinks[0]` on an empty list is `undefined` (`none`).  Download
errors propagate.  The trace records the call and every HTTP GET issued. -/
def processWorkoutEmail (p : ProviderSpec) (m : EmailMessage) :
    Except DownloadError Unit × List MEvent :=
  let link : Option String := m.downloadLinks.head?
  let res := downloadWorkoutFile p.world p.fuel link 30000 (some m.id)
  (res.1.map (fun _ => ()),
    MEvent.processCall m.id :: MEvent.downloadCall link :: res.2.map MEvent.httpGet)

end EmailMonitor

/-- Errors visible at the scheduler layer: generic `Error` messages from
connect/fetch, or a structured download error. -/
inductive AppError
  | str (msg : String)
  | dl (e : DownloadError)
deriving DecidableEq, Repr

/-- Sequential `for (const message of messages) await processWorkoutEmail(message)`
loop shared by all three scheduler modes: stops at the first failing message,
propagating its error. -/
def processAll (p : ProviderSpec) : List EmailMessage → Except DownloadError Unit × List MEvent
  | [] => (Except.ok (), [])
  | m :: rest =>
    let r := EmailMonitor.processWorkoutEmail p m
    match r.1 with
    | Except.error e => (Except.error e, r.2)
    | Except.ok () =>
      let r2 := processAll p rest
      (r2.1, r.2 ++ r2.2)

/-- Embedding of `EmailScheduler.runOnce()`: `monitor.start()`, one
`checkForNewEmails()` pass, `processWorkoutEmail` for each returned message
in order, then `monitor.stop()`.  The surrounding catch logs and rethrows,
so every failure propagates and `stop()` is reached only when the whole
pass succeeded. -/
def EmailScheduler.runOnce (p : ProviderSpec) (s0 : MonitorS) :
    MonitorS × Except AppError Unit × List MEvent :=
  let st := EmailMonitor.start p s0
  match st.2.1 with
  | Except.error e => (st.1, Except.error (AppError.str e), st.2.2)
  | Except.ok () =>
    let ck := EmailMonitor.checkForNewEmails p st.1
    match ck.2.1 with
    | Except.error e => (ck.1, Except.error (AppError.str e), st.2.2 ++ ck.2.2)
    | Except.ok msgs =>
      let pr := processAll p msgs
      match pr.1 with
      | Except.error e => (ck.1, Except.error (AppError.dl e), st.2.2 ++ ck.2.2 ++ pr.2)
      | Except.ok () =>
        let sp := EmailMonitor.stop ck.1
        (sp.1, Except.ok (), st.2.2 ++ ck.2.2 ++ pr.2 ++ sp.2)

/-- Behaviour of the `imap` handle as observed by `OutlookService.getMessages`:
whether `openBox` reports an error, whether `search` reports an error, and the
search hits the server would deliver (never consulted by the source). -/
structure ImapBehavior where
  openBoxErr : Option String
  searchErr : Option String
  searchHits : List Nat
deriving DecidableEq, Repr

/-- Embedding of `OutlookService.getMessages(filter)` (gmailService.ts, IMAP
variant): reject when `this.imap` is unset, reject on `openBox`/`search`
callback errors, otherwise resolve the freshly created empty `messages` list.
The second component records each criteria list passed to `imap.search`. -/
def OutlookService.getMessages (imap : Option ImapBehavior) (fromDomain : String) :
    Except String (List EmailMessage) × List (List (List String)) :=
  match imap with
  | none => (Except.error "IMAP not initialized", [])
  | some b =>
    match b.openBoxErr with
    | some e => (Except.error e, [])
    | none =>
      let searchCriteria := [["UNSEEN"], ["FROM", fromDomain]]
      match b.searchErr with
      | some e => (Except.error e, [searchCriteria])
      | none => (Except.ok [], [searchCriteria])

/-- Parameters of a `gmail.users.messages.list` call. -/
structure GmailListParams where
  userId : String
  q : String
  maxResults : Nat
deriving DecidableEq, Repr

/-- Behaviour of the Gmail API as observed by `GmailService.getMessages`:
`listResult` models `users.messages.list` (`none` inner value = the
`response.data.messages` field absent; each entry is the message's optional
`id`), and `getParsed` models `users.messages.get` composed with the
deterministic `parseGmailMessage`. -/
structure GmailApi where
  listResult : GmailListParams → Except String (Option (List (Option String)))
  getParsed : String → Except String EmailMessage

/-- The per-reference loop of `GmailService.getMessages`: skip entries with a
falsy `id` (`if (!message.id) continue`), fetch-and-parse the rest in order,
rejecting the whole call on the first `get` failure. -/
def gmailFetchAll (api : GmailApi) : List (Option String) → Except String (List EmailMessage)
  | [] => Except.ok []
  | ref :: rest =>
    if !strTruthy ref then gmailFetchAll api rest
    else
      match api.getParsed (ref.getD "") with
      | Except.error e => Except.error e
      | Except.ok m =>
        match gmailFetchAll api rest with
        | Except.error e => Except.error e
        | Except.ok ms => Except.ok (m :: ms)

/-- Embedding of `GmailService.getMessages(filter)` (mail-API variant): reject
when not initialized, else issue one `users.messages.list` call with
`userId = "me"`, `q = from:<domain>` and `maxResults = 1`, then fetch and
parse each listed reference.  The second component records the parameters of
every list call issued. -/
def GmailService.getMessages (api : GmailApi) (connected : Bool) (fromDomain : String) :
    Except String (List EmailMessage) × List GmailListParams :=
  if !connected then
    (Except.error "Gmail service not initialized. Call connect() first.", [])
  else
    let params : GmailListParams := ⟨"me", "from:" ++ fromDomain, 1⟩
    match api.listResult params with
    | Except.error e => (Except.error e, [params])
    | Except.ok none => (Except.ok [], [params])
    | Except.ok (some refs) => (gmailFetchAll api refs, [params])

/-- Spec-side URL branch of filename resolution: last path segment of the URL
(`workout.tcx` when that segment is empty), with `.tcx` appended when missing. -/
def specUrlFilename (url : String) : String :=
  let seg := (jsSplitSlash url).getLastD ""
  let base := if seg.isEmpty then "workout.tcx" else seg
  if jsEndsWith base ".tcx" then base else base ++ ".tcx"

/-- Spec-side Content-Disposition branch: the regex capture group, when it
matched, is non-empty, and is still non-empty after stripping quote
characters; no `.tcx` suffix is ever appended in this branch. -/
def specCdFilename (cd : Option String) : Option String :=
  match cd with
  | none => none
  | some c =>
    match contentDispositionFilename c with
    | none => none
    | some g =>
      if g.isEmpty then none
      else if (stripQuotes g).isEmpty then none
      else some (stripQuotes g)

/-- Spec-side fallback chain below the hint: Content-Disposition value, else
the URL branch. -/
def specCdOrUrlFilename (url : String) (cd : Option String) : String :=
  match specCdFilename cd with
  | some v => v
  | none => specUrlFilename url

/-- Filename precedence written from the amended claim: the explicit hint when
non-empty takes priority verbatim (no `.tcx` append); else the quote-stripped
Content-Disposition value when available (no `.tcx` append); else the URL
branch, the only branch that appends `.tcx`. -/
def specResolvedFilename (url : String) (cd : Option String) (hint : Option String) : String :=
  match hint with
  | some hv => if hv.isEmpty then specCdOrUrlFilename url cd else hv
  | none => specCdOrUrlFilename url cd

/-- Count occurrences of one event in a trace. -/
def countEvent (e : MEvent) (t : List MEvent) : Nat :=
  (t.filter (fun x => decide (x = e))).length

/-- Is the event a `processWorkoutEmail` invocation marker? -/
def isProcessCall : MEvent → Bool
  | MEvent.processCall _ => true
  | _ => false

/-- Concrete world for witnesses: `https://h/a` redirects (302) to
`https://h/run`, everything else answers 200 with body `[9]`. -/
def redirectWorld : String → FetchOutcome := fun u =>
  if u = "https://h/a" then
    FetchOutcome.response ⟨302, some "https://h/run", none, Except.ok []⟩
  else FetchOutcome.response ⟨200, none, none, Except.ok [9]⟩

/-- Concrete world answering every URL with 200, no headers, body `[7]`. -/
def plainWorld : String → FetchOutcome := fun _ =>
  FetchOutcome.response ⟨200, none, none, Except.ok [7]⟩

/-- Concrete world answering every URL with 200 and a quoted
Content-Disposition filename, body `[1]`. -/
def cdWorld : String → FetchOutcome := fun _ =>
  FetchOutcome.response ⟨200, none, some "attachment; filename=\"myrun 2.gpx\"", Except.ok [1]⟩

/-- Three concrete messages, each with one download link, for the run-once
scenario witness. -/
def msgs3 : List EmailMessage :=
  [⟨"m1", "test@mywellness.com", "Workout 1", 0, ["https://h/w/1"]⟩,
   ⟨"m2", "coach@mywellness.com", "Workout 2", 1, ["https://h/w/2"]⟩,
   ⟨"m3", "test@mywellness.com", "Workout 3", 2, ["https://h/w/3"]⟩]

/-- Concrete provider whose connect succeeds, which returns `msgs3`, and whose
HTTP world serves every URL with a 200 response. -/
def p3 : ProviderSpec := ⟨Except.ok (), Except.ok msgs3, plainWorld, 4⟩

/-- Concrete provider with a succeeding connect and an empty inbox. -/
def okProvider : ProviderSpec := ⟨Except.ok (), Except.ok [], fun _ => FetchOutcome.timeout, 0⟩

/-- A single concrete message with no download links, for the C4 witness. -/
def emptyMsg : EmailMessage := ⟨"m0", "a@mywellness.com", "Workout", 0, []⟩

/-- C3: `downloadWorkoutFile` called with an empty URL (`""`) or a missing
(`undefined`) URL always rejects with the missing-URL error
"URL is required to download workout file" and issues no HTTP GET (empty
request trace), for every network world, fuel, timeout and filename hint. -/
theorem downloadWorkoutFile_empty_url_rejects :
    (∀ (world : String → FetchOutcome) (fuel t : Nat) (h : Option String),
      downloadWorkoutFile world fuel none t h = (Except.error DownloadError.argError, []))
    ∧ (∀ (world : String → FetchOutcome) (fuel t : Nat) (h : Option String),
      downloadWorkoutFile world fuel (some "") t h = (Except.error DownloadError.argError, []))
    ∧ DownloadError.argError.message = "URL is required to download workout file" := by
  refine ⟨?_, ?_, rfl⟩ <;> intro world fuel t h <;>
    (rw [downloadWorkoutFile]; simp [strTruthy, show ("" : String).isEmpty = true from rfl])

/-- C6: while the monitor is Stopped, `checkForNewEmails()` always rejects
with the not-running error, never calls `provider.getMessages` (empty trace),
and leaves the state unchanged, whatever the provider behaviour. -/
theorem checkForNewEmails_stopped_rejects (p : ProviderSpec) :
    EmailMonitor.checkForNewEmails p ⟨false⟩
      = (⟨false⟩, Except.error "Email monitor is not running", []) := rfl

/-- C4: on a message whose `downloadLinks` list is empty,
`processWorkoutEmail` passes the undefined first element to the shared
downloader, which rejects with the missing-URL error without issuing any
HTTP GET (no `httpGet` event in the trace), and the rejection propagates as
the call's result. -/
theorem processWorkoutEmail_empty_links_rejects (p : ProviderSpec) (m : EmailMessage)
    (hm : m.downloadLinks = []) :
    EmailMonitor.processWorkoutEmail p m
      = (Except.error DownloadError.argError,
         [MEvent.processCall m.id, MEvent.downloadCall none])
    ∧ DownloadError.argError.message = "URL is required to download workout file" := by
  refine ⟨?_, rfl⟩
  simp [EmailMonitor.processWorkoutEmail, hm, downloadWorkoutFile, strTruthy, Except.map]

/-- Witness for C4 at a concrete provider and message. -/
theorem processWorkoutEmail_empty_links_rejects_witness :
    emptyMsg.downloadLinks = [] ∧
    (EmailMonitor.processWorkoutEmail okProvider emptyMsg
      = (Except.error DownloadError.argError,
         [MEvent.processCall "m0", MEvent.downloadCall none])
    ∧ DownloadError.argError.message = "URL is required to download workout file") :=
  ⟨rfl, processWorkoutEmail_empty_links_rejects okProvider emptyMsg rfl⟩

/-- C7: while Running, `checkForNewEmails()` returns exactly the provider's
list, unmodified and in order, applying no filtering of its own; the state is
unchanged and the only provider interaction is the `getMessages` call. -/
theorem checkForNewEmails_returns_provider_list (p : ProviderSpec) (s : MonitorS)
    (msgs : List EmailMessage) (hr : s.isRunning = true)
    (hm : p.messages = Except.ok msgs) :
    EmailMonitor.checkForNewEmails p s = (s, Except.ok msgs, [MEvent.getMessagesCall]) := by
  simp [EmailMonitor.checkForNewEmails, hr, hm]

/-- Witness for C7 with the two-message provider. -/
theorem checkForNewEmails_returns_provider_list_witness :
    (MonitorS.mk true).isRunning = true ∧ p3.messages = Except.ok msgs3 ∧
    EmailMonitor.checkForNewEmails p3 ⟨true⟩
      = (⟨true⟩, Except.ok msgs3, [MEvent.getMessagesCall]) :=
  ⟨rfl, rfl, checkForNewEmails_returns_provider_list p3 ⟨true⟩ msgs3 rfl rfl⟩

/-- C5: `start()` is idempotent with respect to connection: starting from
Stopped with a succeeding `connect()`, the first call connects once and moves
to Running, the second call is a no-op issuing no further `connect`, so the
combined trace holds exactly one `connect` event; and when `connect()` fails,
the monitor remains Stopped and the error propagates. -/
theorem start_idempotent_connect_once (p : ProviderSpec) :
    (p.connectResult = Except.ok () →
      EmailMonitor.start p ⟨false⟩ = (⟨true⟩, Except.ok (), [MEvent.connect])
      ∧ EmailMonitor.start p (EmailMonitor.start p ⟨false⟩).1
          = ((⟨true⟩ : MonitorS), Except.ok (), ([] : List MEvent))
      ∧ countEvent MEvent.connect
          ((EmailMonitor.start p ⟨false⟩).2.2
            ++ (EmailMonitor.start p (EmailMonitor.start p ⟨false⟩).1).2.2) = 1)
    ∧ ∀ e, p.connectResult = Except.error e →
        EmailMonitor.start p ⟨false⟩ = (⟨false⟩, Except.error e, [MEvent.connect]) := by
  constructor
  · intro hc
    have h1 : EmailMonitor.start p ⟨false⟩ = (⟨true⟩, Except.ok (), [MEvent.connect]) := by
      simp [EmailMonitor.start, hc]
    refine ⟨h1, ?_, ?_⟩
    · rw [h1]
      rfl
    · rw [h1]
      rfl
  · intro e he
    simp [EmailMonitor.start, he]

/-- Witness for C5 at a concrete provider with a succeeding connect. -/
theorem start_idempotent_connect_once_witness :
    okProvider.connectResult = Except.ok () ∧
    (EmailMonitor.start okProvider ⟨false⟩ = (⟨true⟩, Except.ok (), [MEvent.connect])
      ∧ EmailMonitor.start okProvider (EmailMonitor.start okProvider ⟨false⟩).1
          = ((⟨true⟩ : MonitorS), Except.ok (), ([] : List MEvent))
      ∧ countEvent MEvent.connect
          ((EmailMonitor.start okProvider ⟨false⟩).2.2
            ++ (EmailMonitor.start okProvider (EmailMonitor.start okProvider ⟨false⟩).1).2.2) = 1) :=
  ⟨rfl, (start_idempotent_connect_once okProvider).1 rfl⟩

/-- C1: redirect transparency of the shared downloader — when the GET on `u`
answers 301/302 with a non-empty `location` header `X`, downloading `u` (with
one extra unit of redirect fuel) settles exactly as downloading `X` directly
with the same timeout and filename hint, for every fuel (hence for every
finite acyclic chain depth, by composing this step). -/
theorem downloadWorkoutFile_redirect_transparent (world : String → FetchOutcome)
    (u X : String) (r : HttpResponse) (t fuel : Nat) (h : Option String)
    (hu : u ≠ "") (hX : X ≠ "")
    (hw : world u = FetchOutcome.response r)
    (hs : r.statusCode = 302 ∨ r.statusCode = 301)
    (hl : r.location = some X) :
    (downloadWorkoutFile world (fuel + 1) (some u) t h).1
      = (downloadWorkoutFile world fuel (some X) t h).1 := by
  have hu' : u.isEmpty = false :=
    Bool.eq_false_iff.mpr (fun hh => hu ((String.isEmpty_iff u).1 hh))
  have hX' : X.isEmpty = false :=
    Bool.eq_false_iff.mpr (fun hh => hX ((String.isEmpty_iff X).1 hh))
  rw [downloadWorkoutFile]
  rcases hs with h3 | h3 <;>
    simp [strTruthy, hu', hX', hw, hl, h3]

/-- Witness for C1: a concrete 302 hop resolving to the target's result. -/
theorem downloadWorkoutFile_redirect_transparent_witness :
    ("https://h/a" ≠ "") ∧
    (downloadWorkoutFile redirectWorld 1 (some "https://h/a") 30000 none).1
      = (downloadWorkoutFile redirectWorld 0 (some "https://h/run") 30000 none).1
    ∧ (downloadWorkoutFile redirectWorld 0 (some "https://h/run") 30000 none).1
      = Except.ok ⟨"run.tcx", [9]⟩ :=
  ⟨by decide,
   downloadWorkoutFile_redirect_transparent redirectWorld "https://h/a" "https://h/run"
     ⟨302, some "https://h/run", none, Except.ok []⟩ 30000 0 none
     (by decide) (by decide) (by decide) (Or.inl rfl) rfl,
   by decide⟩

/-- Evaluation of truthiness on `none`. -/
theorem strTruthy_none : strTruthy none = false := rfl

/-- Evaluation of truthiness on `some`. -/
theorem strTruthy_some (s : String) : strTruthy (some s) = !s.isEmpty := rfl

/-- Helper: with a falsy hint, the source's filename resolution equals the
spec-side Content-Disposition-then-URL fallback chain. -/
theorem resolveFilename_no_hint (url : String) (cd : Option String) (hint : Option String)
    (hfalsy : strTruthy hint = false) :
    resolveFilename url cd hint = specCdOrUrlFilename url cd := by
  cases cd with
  | none =>
    simp [resolveFilename, specCdOrUrlFilename, specCdFilename, specUrlFilename,
      hfalsy, strTruthy_none]
  | some c =>
    cases hg : contentDispositionFilename c with
    | none =>
      simp [resolveFilename, specCdOrUrlFilename, specCdFilename, specUrlFilename,
        hfalsy, hg, strTruthy_none]
    | some g =>
      by_cases hge : g.isEmpty
      · simp [resolveFilename, specCdOrUrlFilename, specCdFilename, specUrlFilename,
          hfalsy, hg, hge, strTruthy_none]
      · have hge2 : g.isEmpty = false := Bool.eq_false_iff.mpr hge
        by_cases hse : (stripQuotes g).isEmpty
        · simp [resolveFilename, specCdOrUrlFilename, specCdFilename, specUrlFilename,
            hfalsy, hg, hge2, hse, strTruthy_some]
        · have hse2 : (stripQuotes g).isEmpty = false := Bool.eq_false_iff.mpr hse
          simp [resolveFilename, specCdOrUrlFilename, specCdFilename, specUrlFilename,
            hfalsy, hg, hge2, hse2, strTruthy_some]

/-- Helper: the source's inline filename resolution coincides everywhere with
the spec-side precedence function. -/
theorem resolveFilename_eq_spec (url : String) (cd hint : Option String) :
    resolveFilename url cd hint = specResolvedFilename url cd hint := by
  cases hint with
  | none =>
    simpa [specResolvedFilename] using resolveFilename_no_hint url cd none rfl
  | some hv =>
    by_cases hve : hv.isEmpty
    · rw [resolveFilename_no_hint url cd (some hv) (by simp [strTruthy_some, hve])]
      simp [specResolvedFilename, hve]
    · have hve2 : hv.isEmpty = false := Bool.eq_false_iff.mpr hve
      simp [resolveFilename, specResolvedFilename, strTruthy_some, hve2]

/-- C2 counterexample: a successful download with the explicit hint
"myrun.gpx" resolves to "myrun.gpx" verbatim, although that name lacks the
`.tcx` suffix — so `.tcx` is not appended in the hint branch, refuting the
claim that the suffix is appended unconditionally in every branch. -/
theorem download_hint_without_tcx_kept :
    (downloadWorkoutFile plainWorld 0 (some "https://h/w/5") 30000 (some "myrun.gpx")).1
      = Except.ok ⟨"myrun.gpx", [7]⟩
    ∧ jsEndsWith "myrun.gpx" ".tcx" = false := by decide

/-- C2 (amended): for every successful download whose final GET answered 200,
the resolved filename follows the precedence — non-empty explicit hint
verbatim; else the Content-Disposition `filename=` capture (quotes stripped)
when the capture and its stripped form are non-empty, verbatim; else the last
URL path segment (`workout.tcx` when empty), with `.tcx` appended only in
this URL branch when missing. -/
theorem downloadWorkoutFile_filename_precedence (world : String → FetchOutcome)
    (u : String) (r : HttpResponse) (fuel t : Nat) (hint : Option String) (data : List Nat)
    (hu : u ≠ "") (hw : world u = FetchOutcome.response r)
    (hs : r.statusCode = 200) (hb : r.body = Except.ok data) :
    (downloadWorkoutFile world fuel (some u) t hint).1
      = Except.ok ⟨specResolvedFilename u r.contentDisposition hint, data⟩ := by
  have hu' : u.isEmpty = false :=
    Bool.eq_false_iff.mpr (fun hh => hu ((String.isEmpty_iff u).1 hh))
  rw [downloadWorkoutFile]
  simp [strTruthy, hu', hw, hs, hb, resolveFilename_eq_spec]

/-- Witness for C2's amended theorem: a concrete 200 response carrying a
quoted Content-Disposition filename and no hint. -/
theorem downloadWorkoutFile_filename_precedence_witness :
    ("https://h/x" ≠ "") ∧
    (downloadWorkoutFile cdWorld 0 (some "https://h/x") 30000 none).1
      = Except.ok ⟨specResolvedFilename "https://h/x"
          (some "attachment; filename=\"myrun 2.gpx\"") none, [1]⟩
    ∧ specResolvedFilename "https://h/x"
        (some "attachment; filename=\"myrun 2.gpx\"") none = "myrun 2.gpx" :=
  ⟨by decide,
   downloadWorkoutFile_filename_precedence cdWorld "https://h/x"
     ⟨200, none, some "attachment; filename=\"myrun 2.gpx\"", Except.ok [1]⟩ 0 30000 none [1]
     (by decide) rfl rfl rfl,
   by decide⟩

/-- Helper: HTTP GET events are never `disconnect` events. -/
theorem filter_disconnect_map_httpGet (l : List String) :
    (l.map MEvent.httpGet).filter (fun x => decide (x = MEvent.disconnect)) = [] := by
  induction l with
  | nil => rfl
  | cons a tl ih => simp [ih]

/-- Helper: HTTP GET events are never `processCall` events. -/
theorem filter_processCall_map_httpGet (l : List String) :
    (l.map MEvent.httpGet).filter isProcessCall = [] := by
  induction l with
  | nil => rfl
  | cons a tl ih => simp [isProcessCall, ih]

/-- Helper: the per-message processing loop never emits a `disconnect`. -/
theorem processAll_no_disconnect (p : ProviderSpec) (msgs : List EmailMessage) :
    countEvent MEvent.disconnect (processAll p msgs).2 = 0 := by
  induction msgs with
  | nil => rfl
  | cons m rest ih =>
    cases hd : (downloadWorkoutFile p.world p.fuel m.downloadLinks.head? 30000 (some m.id)).1 with
    | error e =>
      simp [processAll, EmailMonitor.processWorkoutEmail, hd, Except.map, countEvent,
        filter_disconnect_map_httpGet]
    | ok dr =>
      simp only [processAll, EmailMonitor.processWorkoutEmail, hd, Except.map]
      simpa [countEvent, List.filter_append, filter_disconnect_map_httpGet] using ih

/-- Helper: a fully successful processing loop emits exactly one `processCall`
per message. -/
theorem processAll_ok_processCall_count (p : ProviderSpec) (msgs : List EmailMessage)
    (hok : (processAll p msgs).1 = Except.ok ()) :
    ((processAll p msgs).2.filter isProcessCall).length = msgs.length := by
  induction msgs with
  | nil => rfl
  | cons m rest ih =>
    cases hd : (downloadWorkoutFile p.world p.fuel m.downloadLinks.head? 30000 (some m.id)).1 with
    | error e =>
      exfalso
      simp [processAll, EmailMonitor.processWorkoutEmail, hd, Except.map] at hok
    | ok dr =>
      have hok2 : (processAll p rest).1 = Except.ok () := by
        simpa [processAll, EmailMonitor.processWorkoutEmail, hd, Except.map] using hok
      simp [processAll, EmailMonitor.processWorkoutEmail, hd, Except.map,
        List.filter_append, filter_processCall_map_httpGet, isProcessCall, ih hok2]

/-- C8: `runOnce()` under a succeeding `connect()` — when the provider returns
`msgs` and every per-message pass succeeds, the run invokes
`processWorkoutEmail` exactly `msgs.length` times (one `processCall` event per
message, in order), then disconnects exactly once, strictly after the whole
processing trace (the trace ends in the sole `disconnect`); when some
per-message pass fails, the error propagates to the caller and no disconnect
ever happens; when the check itself fails, that error propagates likewise with
no processing and no disconnect. -/
theorem runOnce_sequence (p : ProviderSpec) (hc : p.connectResult = Except.ok ()) :
    (∀ msgs, p.messages = Except.ok msgs →
      ((processAll p msgs).1 = Except.ok () →
        EmailScheduler.runOnce p ⟨false⟩
          = (⟨false⟩, Except.ok (),
             MEvent.connect :: MEvent.getMessagesCall
               :: ((processAll p msgs).2 ++ [MEvent.disconnect]))
        ∧ ((processAll p msgs).2.filter isProcessCall).length = msgs.length
        ∧ countEvent MEvent.disconnect
            (MEvent.connect :: MEvent.getMessagesCall :: (processAll p msgs).2) = 0)
      ∧ ∀ e, (processAll p msgs).1 = Except.error e →
          EmailScheduler.runOnce p ⟨false⟩
            = (⟨true⟩, Except.error (AppError.dl e),
               MEvent.connect :: MEvent.getMessagesCall :: (processAll p msgs).2)
          ∧ countEvent MEvent.disconnect
              (MEvent.connect :: MEvent.getMessagesCall :: (processAll p msgs).2) = 0)
    ∧ ∀ e, p.messages = Except.error e →
        EmailScheduler.runOnce p ⟨false⟩
          = (⟨true⟩, Except.error (AppError.str e),
             [MEvent.connect, MEvent.getMessagesCall]) := by
  constructor
  · intro msgs hm
    constructor
    · intro hok
      refine ⟨?_, processAll_ok_processCall_count p msgs hok, ?_⟩
      · simp [EmailScheduler.runOnce, EmailMonitor.start, hc,
          EmailMonitor.checkForNewEmails, hm, hok, EmailMonitor.stop]
      · simpa [countEvent] using processAll_no_disconnect p msgs
    · intro e he
      refine ⟨?_, ?_⟩
      · simp [EmailScheduler.runOnce, EmailMonitor.start, hc,
          EmailMonitor.checkForNewEmails, hm, he]
      · simpa [countEvent] using processAll_no_disconnect p msgs
  · intro e he
    simp [EmailScheduler.runOnce, EmailMonitor.start, hc,
      EmailMonitor.checkForNewEmails, he]

/-- Witness for C8: the three-message provider with all downloads succeeding. -/
theorem runOnce_sequence_witness :
    p3.connectResult = Except.ok () ∧
    (EmailScheduler.runOnce p3 ⟨false⟩
      = (⟨false⟩, Except.ok (),
         MEvent.connect :: MEvent.getMessagesCall
           :: ((processAll p3 msgs3).2 ++ [MEvent.disconnect]))
    ∧ ((processAll p3 msgs3).2.filter isProcessCall).length = msgs3.length
    ∧ countEvent MEvent.disconnect
        (MEvent.connect :: MEvent.getMessagesCall :: (processAll p3 msgs3).2) = 0) :=
  ⟨rfl, ((runOnce_sequence p3 rfl).1 msgs3 rfl).1 (by decide)⟩

/-- C9: the IMAP variant's `getMessages` resolves with the empty message list
whenever the mailbox open and the search succeed, for every filter domain and
regardless of the search hits; it rejects exactly in the three remaining
cases — uninitialized connection, `openBox` callback error, `search` callback
error — each propagating that error. -/
theorem outlook_getMessages_always_empty :
    (∀ (b : ImapBehavior) (d : String), b.openBoxErr = none → b.searchErr = none →
      OutlookService.getMessages (some b) d
        = (Except.ok [], [[["UNSEEN"], ["FROM", d]]]))
    ∧ (∀ d : String, OutlookService.getMessages none d
        = (Except.error "IMAP not initialized", []))
    ∧ (∀ (b : ImapBehavior) (d e : String), b.openBoxErr = some e →
      OutlookService.getMessages (some b) d = (Except.error e, []))
    ∧ (∀ (b : ImapBehavior) (d e : String), b.openBoxErr = none → b.searchErr = some e →
      OutlookService.getMessages (some b) d
        = (Except.error e, [[["UNSEEN"], ["FROM", d]]])) := by
  refine ⟨?_, ?_, ?_, ?_⟩
  · intro b d h1 h2
    simp [OutlookService.getMessages, h1, h2]
  · intro d
    rfl
  · intro b d e h1
    simp [OutlookService.getMessages, h1]
  · intro b d e h1 h2
    simp [OutlookService.getMessages, h1, h2]

/-- Witness for C9: a concrete behaviour with non-empty search hits still
yields the empty list. -/
theorem outlook_getMessages_always_empty_witness :
    (⟨none, none, [42, 43]⟩ : ImapBehavior).openBoxErr = none ∧
    (⟨none, none, [42, 43]⟩ : ImapBehavior).searchErr = none ∧
    OutlookService.getMessages (some ⟨none, none, [42, 43]⟩) "mywellness.com"
      = (Except.ok [], [[["UNSEEN"], ["FROM", "mywellness.com"]]]) :=
  ⟨rfl, rfl,
   outlook_getMessages_always_empty.1 ⟨none, none, [42, 43]⟩ "mywellness.com" rfl rfl⟩

/-- Helper: the Gmail fetch loop returns at most one message per listed
reference. -/
theorem gmailFetchAll_length_le (api : GmailApi) (refs : List (Option String))
    (ms : List EmailMessage) (h : gmailFetchAll api refs = Except.ok ms) :
    ms.length ≤ refs.length := by
  induction refs generalizing ms with
  | nil =>
    simp [gmailFetchAll] at h
    simp [← h]
  | cons ref rest ih =>
    cases hf : strTruthy ref with
    | false =>
      rw [gmailFetchAll, hf] at h
      exact Nat.le_succ_of_le (ih ms (by simpa using h))
    | true =>
      rw [gmailFetchAll, hf] at h
      cases hg : api.getParsed (ref.getD "") with
      | error e => simp [hg] at h
      | ok m =>
        rw [hg] at h
        cases hr : gmailFetchAll api rest with
        | error e => simp [hr] at h
        | ok ms2 =>
          rw [hr] at h
          simp at h
          subst h
          simpa using Nat.succ_le_succ (ih ms2 hr)

/-- C10: the mail-API variant's `getMessages` issues its single list call with
`maxResults = 1` (and `userId = "me"`, `q = from:<domain>`), so under the API
contract that a list response never exceeds the requested `maxResults`, every
successful call returns at most one message. -/
theorem gmail_getMessages_maxResults_one :
    (∀ (api : GmailApi) (d : String),
      (GmailService.getMessages api true d).2
        = [{ userId := "me", q := "from:" ++ d, maxResults := 1 }])
    ∧ (∀ (api : GmailApi) (d : String) (msgs : List EmailMessage),
      (∀ (pa : GmailListParams) (refs : List (Option String)),
          api.listResult pa = Except.ok (some refs) → refs.length ≤ pa.maxResults) →
      (GmailService.getMessages api true d).1 = Except.ok msgs → msgs.length ≤ 1) := by
  constructor
  · intro api d
    cases hl : api.listResult { userId := "me", q := "from:" ++ d, maxResults := 1 } with
    | error e => simp [GmailService.getMessages, hl]
    | ok o => cases o <;> simp [GmailService.getMessages, hl]
  · intro api d msgs hapi hok
    cases hl : api.listResult { userId := "me", q := "from:" ++ d, maxResults := 1 } with
    | error e => simp [GmailService.getMessages, hl] at hok
    | ok o =>
      cases o with
      | none =>
        simp [GmailService.getMessages, hl] at hok
        subst hok
        simp
      | some refs =>
        have h1 : refs.length ≤ 1 :=
          hapi { userId := "me", q := "from:" ++ d, maxResults := 1 } refs hl
        have h2 : msgs.length ≤ refs.length :=
          gmailFetchAll_length_le api refs msgs
            (by simpa [GmailService.getMessages, hl] using hok)
        exact le_trans h2 h1

/-- Concrete Gmail API behaviour honouring `maxResults`, for the C10 witness. -/
def gmailApi1 : GmailApi :=
  ⟨fun pa => Except.ok (some (([some "id1"] : List (Option String)).take pa.maxResults)),
   fun _ => Except.ok ⟨"id1", "t@mywellness.com", "W", 0, ["https://h/w.tcx"]⟩⟩

/-- Witness for C10 at a concrete API behaviour. -/
theorem gmail_getMessages_maxResults_one_witness :
    (GmailService.getMessages gmailApi1 true "mywellness.com").2
      = [{ userId := "me", q := "from:" ++ "mywellness.com", maxResults := 1 }]
    ∧ (GmailService.getMessages gmailApi1 true "mywellness.com").1
      = Except.ok [⟨"id1", "t@mywellness.com", "W", 0, ["https://h/w.tcx"]⟩]
    ∧ (GmailService.getMessages gmailApi1 true "mywellness.com").1.map List.length
      = Except.ok 1 := by
  refine ⟨gmail_getMessages_maxResults_one.1 gmailApi1 "mywellness.com", by decide, by decide⟩
